import Mathlib

/-
Verification of the real-time messaging subsystem of the boardlyX frontend.

The definitions below are a shallow embedding of the TypeScript source:
  - src/components/dashboard/ChatPage.tsx (timeline, composer, pins, typing)
  - src/src/hooks/useSocket.ts            (connection manager, sendMessage)
  - the chat API module (Message / Conversation shapes)

Strings that the source manipulates character-by-character (the composer
text) are modelled as `List Char`; server-assigned ISO timestamps are
modelled as `Nat` (the value of `new Date(s).getTime()`), and the
single-threaded event loop is modelled by folding pure transition
functions over explicit event lists.
-/

/-- Message shape from the chat API module. The `sender` and `reply_to`
display denormalizations are omitted; `created_at` (an ISO string in the
source, compared via `Date.getTime()`) is modelled as a `Nat`. -/
structure Message where
  id : String
  conversation_id : String
  sender_id : String
  content : String
  media_type : Option String
  media_data : Option String
  reply_to_id : Option String
  created_at : Nat
deriving DecidableEq

/-- Conversation, projected to the fields the messaging claims touch. -/
structure Conversation where
  id : String
  pinned_message : Option Message
deriving DecidableEq

/-- Member entry of a conversation. `name` and `username` are kept as
character lists because the mention autocomplete inspects them
character-wise. -/
structure ConversationMember where
  id : String
  name : List Char
  username : List Char
deriving DecidableEq

/-- Mention-autocomplete state (ChatPage.tsx `mentionQuery`):
`text` is the lowercased partial token after the `@`, `index` the offset
of the `@` in the input at the moment the query was (re)computed. -/
structure MentionQuery where
  active : Bool
  text : List Char
  index : Nat
deriving DecidableEq

/-- Payload of a `user_typing` / `user_stop_typing` event. -/
structure TypingEvent where
  conversationId : String
  userId : String
deriving DecidableEq

/-- The file object handed to `handleFileSelect`. -/
structure JSFile where
  size : Nat
  type : String
  name : String
deriving DecidableEq

/-- Staged attachment (ChatPage.tsx `mediaPreview`). -/
structure MediaPreview where
  type : String
  data : String
  name : String
deriving DecidableEq

/-- The inline errors `handleFileSelect` can surface near the composer
(the source shows them as strings; the size message embeds a
floating-point rendering of the size, abstracted here). -/
inductive UploadError
  | tooLarge
  | unsupportedType
  | readFailed
deriving DecidableEq

/-- Acknowledgment payload of the `send_message` socket round trip. -/
structure AckResponse where
  success : Bool
  message : Option Message
deriving DecidableEq

/-- Outcome of a JS promise: settled by `resolve` or by `reject`. -/
inductive SendOutcome
  | resolved : Option Message → SendOutcome
  | rejected : SendOutcome
deriving DecidableEq

/-- Composer state slice used by `handleSend`. -/
structure ComposerState where
  messageInput : String
  replyingTo : Option Message
  sending : Bool
deriving DecidableEq

/-- Chat page state slice for the active conversation's timeline. -/
structure ChatState where
  activeConvId : Option String
  messages : List Message
deriving DecidableEq

/-- Module-level state of useSocket.ts: whether the `globalSocket`
singleton slot is occupied, and the consumer reference count
(a JS number, so modelled as `Int`). -/
structure SocketState where
  globalSocket : Bool
  connectionCount : Int
deriving DecidableEq

/-- Lifecycle events of useSocket consumers: the mount effect (with the
auth token read from storage, possibly absent) and the cleanup of a
mount that passed the token guard. -/
inductive SocketEvent
  | mount : Option String → SocketEvent
  | unmount : SocketEvent
deriving DecidableEq

/-- Observable actions on the transport. -/
inductive TransportAction
  | openTransport
  | closeTransport
deriving DecidableEq

/-- ChatPage.tsx 171-174, the `setMessages` updater inside the
`onNewMessage` handler (the spec names this operation `appendIfNew`):
append unless an entry with the same id already exists. -/
def appendIfNew (prev : List Message) (message : Message) : List Message :=
  if prev.any (fun m => m.id == message.id) then prev else prev ++ [message]

/-- ChatPage.tsx 169-176: the timeline part of the `onNewMessage`
handler; only events for the active conversation touch `messages`. -/
def onNewMessageTimeline (activeConvId : Option String) (prev : List Message)
    (message : Message) : List Message :=
  if some message.conversation_id = activeConvId then appendIfNew prev message else prev

/-- ChatPage.tsx 154-165 (`loadMessages`), at the instant the
`getMessages(convId)` request resolves with `msgs`: the source runs
`setMessages(msgs)` without comparing `convId` to the `activeConvId`
current at resolution time. -/
def loadMessagesResolve (s : ChatState) (convId : String) (msgs : List Message) : ChatState :=
  { s with messages := msgs }

/-- ChatPage.tsx 417-422 (`handleSelectConversation`), projected to the
timeline slice: the active conversation id changes (the source also
clears the typing set and the reply target). -/
def handleSelectConversation (s : ChatState) (convId : String) : ChatState :=
  { s with activeConvId := some convId }

/-- useSocket.ts 53-64 (`sendMessage`): promise that resolves `null`
when no socket exists, resolves `response.message` when the ack reports
success, and resolves `null` otherwise; `reject` is never called. -/
def sendMessage (hasSocket : Bool) (response : AckResponse) : SendOutcome :=
  if hasSocket = false then SendOutcome.resolved none
  else if response.success then SendOutcome.resolved response.message
  else SendOutcome.resolved none

/-- ChatPage.tsx 270-275, first half of `handleSend` on the text path:
capture `content = messageInput.trim()`, then optimistically clear the
input, clear the reply target and set `sending`. -/
def handleSendBegin (st : ComposerState) : String × ComposerState :=
  (st.messageInput.trim, { messageInput := "", replyingTo := none, sending := true })

/-- ChatPage.tsx 277-285, second half of `handleSend`: the `catch`
branch restores the drafted content into the input, the `finally`
branch clears `sending`; a resolved promise (whatever its value) leaves
the cleared input alone. -/
def handleSendFinish (content : String) (outcome : SendOutcome)
    (st : ComposerState) : ComposerState :=
  match outcome with
  | SendOutcome.resolved _ => { st with sending := false }
  | SendOutcome.rejected => { st with messageInput := content, sending := false }

/-- JS `String.prototype.split` on a single-character class: splits at
every separator character, keeping empty segments, and always returns
at least one segment. -/
def splitChars (p : Char → Bool) : List Char → List (List Char)
  | [] => [[]]
  | c :: cs =>
    if p c then [] :: splitChars p cs
    else
      match splitChars p cs with
      | [] => [[c]]
      | w :: ws => (c :: w) :: ws

/-- ChatPage.tsx 362-376, the mention part of `handleInputChange`:
take the text before the cursor, split it on whitespace (`/[\s\n]/`),
look at the last word; if it starts with `@`, activate a mention query
whose `index` is the offset of that `@`. -/
def computeMentionQuery (val : List Char) (cursorPosition : Nat) : Option MentionQuery :=
  let textBeforeCursor := val.take cursorPosition
  let words := splitChars (fun c => c.isWhitespace) textBeforeCursor
  let currentWord := words.getLastD []
  if currentWord.head? = some '@' then
    some { active := true
           text := (currentWord.drop 1).map Char.toLower
           index := cursorPosition - currentWord.length }
  else none

/-- ChatPage.tsx 389-397 (`handleMentionSelect`): splice
`"@" + username + " "` between the text before the captured
`mentionQuery.index` and the text after the current `selectionStart`. -/
def handleMentionSelect (messageInput : List Char) (mentionQuery : Option MentionQuery)
    (selectionStart : Nat) (username : List Char) : List Char :=
  match mentionQuery with
  | none => messageInput
  | some q =>
    messageInput.take q.index ++ '@' :: (username ++ ' ' :: messageInput.drop selectionStart)

/-- JS `String.prototype.includes` on character lists: does `sub`
occur contiguously in the second argument? -/
def includesChars (sub : List Char) : List Char → Bool
  | [] => sub.isEmpty
  | c :: rest => sub.isPrefixOf (c :: rest) || includesChars sub rest

/-- ChatPage.tsx 474, the `mentionQuery?.text || ''` coalescing. -/
def mentionQueryText (mq : Option MentionQuery) : List Char :=
  match mq with
  | some q => q.text
  | none => []

/-- ChatPage.tsx 474 (`mentionableMembers`): members other than self
whose lowercased username or name contains the query text. -/
def mentionableMembers (members : List ConversationMember) (currentUserId : String)
    (mq : Option MentionQuery) : List ConversationMember :=
  members.filter (fun m =>
    (!(m.id == currentUserId)) &&
    (includesChars (mentionQueryText mq) (m.username.map Char.toLower) ||
     includesChars (mentionQueryText mq) (m.name.map Char.toLower)))

/-- ChatPage.tsx 456, `activeConv?.pinned_message?.id === message.id`. -/
def isPinnedById (activeConv : Option Conversation) (messageId : String) : Bool :=
  match activeConv with
  | some c =>
    match c.pinned_message with
    | some p => p.id == messageId
    | none => false
  | none => false

/-- ChatPage.tsx 454-471 (`handleToggleGlobalPin`): bail out without an
active conversation; ask the server to set the slot to `null` when the
message is the currently pinned one and to `message.id` otherwise; on
success mirror that value optimistically into the conversation list
(the `catch` branch changes nothing). -/
def handleToggleGlobalPin (activeConvId : Option String) (conversations : List Conversation)
    (message : Message) (pinRequestSucceeds : Bool) : List Conversation :=
  match activeConvId with
  | none => conversations
  | some cid =>
    let isCurrentlyPinned :=
      isPinnedById (conversations.find? (fun c => c.id == cid)) message.id
    if pinRequestSucceeds then
      conversations.map (fun c =>
        if c.id == cid then
          { c with pinned_message := if isCurrentlyPinned then none else some message }
        else c)
    else conversations

/-- Projection: the pinned message of the conversation `cid` in the
list, through the same `find?` the page uses to obtain `activeConv`. -/
def pinnedMessageOf (conversations : List Conversation) (cid : String) : Option Message :=
  (conversations.find? (fun c => c.id == cid)).bind Conversation.pinned_message

/-- JS `String.prototype.startsWith`, computed on the character
lists of the two strings. -/
def startsWithStr (s pre : String) : Bool :=
  pre.toList.isPrefixOf s.toList

/-- ChatPage.tsx 9. -/
def MAX_FILE_SIZE : Nat := 2 * 1024 * 1024

/-- ChatPage.tsx 319-356 (`handleFileSelect`): reject oversized files,
then files that are neither `image/*` nor `video/*`; otherwise stage a
preview from the FileReader result (`none` models a read error, which
surfaces the read-failure message). Returns (uploadError, mediaPreview). -/
def handleFileSelect (file : JSFile) (readResult : Option String) :
    Option UploadError × Option MediaPreview :=
  if MAX_FILE_SIZE < file.size then (some UploadError.tooLarge, none)
  else if !(startsWithStr file.type "image/") && !(startsWithStr file.type "video/") then
    (some UploadError.unsupportedType, none)
  else
    match readResult with
    | some data => (none, some { type := file.type, data := data, name := file.name })
    | none => (some UploadError.readFailed, none)

/-- ChatPage.tsx 291-316 (`handleSendMedia`), reduced to what it
transmits: the staged preview, and only when one is staged, a
conversation is active and no upload is in flight. -/
def handleSendMediaAttempt (mediaPreview : Option MediaPreview) (activeConvId : Option String)
    (uploading : Bool) : Option MediaPreview :=
  match mediaPreview, activeConvId, uploading with
  | some mp, some _, false => some mp
  | _, _, _ => none

/-- JS `Set.prototype.add` on a duplicate-free list kept in insertion
order. -/
def setAdd (s : List String) (u : String) : List String :=
  if u ∈ s then s else s ++ [u]

/-- ChatPage.tsx 223-227, the `user_typing` handler: add the user only
when the event is for the active conversation and the user is not the
current user. -/
def onUserTyping (activeConvId : Option String) (currentUserId : String)
    (s : List String) (d : TypingEvent) : List String :=
  if some d.conversationId = activeConvId ∧ d.userId ≠ currentUserId
  then setAdd s d.userId else s

/-- ChatPage.tsx 229-237, the `user_stop_typing` handler: when the
event is for the active conversation, delete the user from the set. -/
def onUserStopTyping (activeConvId : Option String) (s : List String)
    (d : TypingEvent) : List String :=
  if some d.conversationId = activeConvId
  then s.filter (fun u => !(u == d.userId)) else s

/-- useSocket.ts 14-51: one step of the connection manager. A mount
with no token does nothing; a mount with a token increments the count
and opens the transport only when the singleton slot is empty; the
cleanup decrements the count, and disconnects and clears the slot only
when the count has reached zero. The returned list records the
transport actions performed. -/
def socketStep (s : SocketState) : SocketEvent → SocketState × List TransportAction
  | SocketEvent.mount none => (s, [])
  | SocketEvent.mount (some _) =>
    if s.globalSocket then
      ({ s with connectionCount := s.connectionCount + 1 }, [])
    else
      ({ globalSocket := true, connectionCount := s.connectionCount + 1 },
       [TransportAction.openTransport])
  | SocketEvent.unmount =>
    if s.connectionCount - 1 = 0 ∧ s.globalSocket = true then
      ({ globalSocket := false, connectionCount := s.connectionCount - 1 },
       [TransportAction.closeTransport])
    else
      ({ s with connectionCount := s.connectionCount - 1 }, [])

/-- Run of the connection manager over a consumer lifecycle trace. -/
def socketRun : SocketState → List SocketEvent → SocketState × List TransportAction
  | s, [] => (s, [])
  | s, e :: es =>
    ((socketRun (socketStep s e).1 es).1,
     (socketStep s e).2 ++ (socketRun (socketStep s e).1 es).2)

/-- Module load state of useSocket.ts: no socket, zero consumers. -/
def socketInit : SocketState := { globalSocket := false, connectionCount := 0 }

/-- Number of transports currently held by the state. -/
def bOpen (s : SocketState) : Nat := if s.globalSocket then 1 else 0

/-- Demo message timestamped 10:00 (minute 1000 of the model clock). -/
def msgT1000 : Message :=
  { id := "m1", conversation_id := "convA", sender_id := "u1", content := "first"
    media_type := none, media_data := none, reply_to_id := none, created_at := 1000 }

/-- Demo message timestamped 10:01. -/
def msgT1001 : Message :=
  { id := "m2", conversation_id := "convA", sender_id := "u2", content := "second"
    media_type := none, media_data := none, reply_to_id := none, created_at := 1001 }

/-- Demo message timestamped 10:02. -/
def msgT1002 : Message :=
  { id := "m3", conversation_id := "convA", sender_id := "u1", content := "third"
    media_type := none, media_data := none, reply_to_id := none, created_at := 1002 }

/-- Demo message belonging to conversation A. -/
def msgInA : Message :=
  { id := "ma", conversation_id := "A", sender_id := "u1", content := "in A"
    media_type := none, media_data := none, reply_to_id := none, created_at := 5 }

/-- Demo message belonging to conversation B. -/
def msgInB : Message :=
  { id := "mb", conversation_id := "B", sender_id := "u2", content := "in B"
    media_type := none, media_data := none, reply_to_id := none, created_at := 6 }

/-- Demo conversation with an empty pin slot. -/
def convDemo : Conversation := { id := "convA", pinned_message := none }

/-- Demo member amy. -/
def amy : ConversationMember :=
  { id := "u2", name := "Amy".toList, username := "amy".toList }

/-- Demo member amir. -/
def amir : ConversationMember :=
  { id := "u3", name := "Amir".toList, username := "amir".toList }

/-- Appending through the dedup updater preserves distinctness of ids. -/
theorem appendIfNew_nodup (prev : List Message) (m : Message)
    (h : (prev.map Message.id).Nodup) : ((appendIfNew prev m).map Message.id).Nodup := by
  unfold appendIfNew
  split
  · exact h
  · rename_i hany
    rw [List.map_append]
    rw [List.nodup_append]
    refine ⟨h, by simp, ?_⟩
    intro x hx hmem
    simp only [List.map_cons, List.map_nil, List.mem_singleton] at hmem
    subst hmem
    apply hany
    rw [List.any_eq_true]
    rcases List.mem_map.mp hx with ⟨y, hy, hyid⟩
    exact ⟨y, hy, by simp [hyid]⟩

/-- One `new_message` event preserves distinctness of timeline ids. -/
theorem onNewMessageTimeline_nodup (a : Option String) (prev : List Message) (m : Message)
    (h : (prev.map Message.id).Nodup) :
    ((onNewMessageTimeline a prev m).map Message.id).Nodup := by
  unfold onNewMessageTimeline
  split
  · exact appendIfNew_nodup prev m h
  · exact h

/-- Each `new_message` event either leaves the timeline unchanged or
appends the event's message at the end. -/
theorem onNewMessageTimeline_cases (a : Option String) (prev : List Message) (m : Message) :
    onNewMessageTimeline a prev m = prev ∨ onNewMessageTimeline a prev m = prev ++ [m] := by
  unfold onNewMessageTimeline appendIfNew
  split
  · split
    · exact Or.inl rfl
    · exact Or.inr rfl
  · exact Or.inl rfl

/-- Folding `new_message` events appends a sublist of the event stream,
in arrival order, after the existing timeline. -/
theorem foldl_onNewMessageTimeline_sublist (a : Option String) :
    ∀ (evs init : List Message),
      ∃ s, List.Sublist s evs ∧ List.foldl (onNewMessageTimeline a) init evs = init ++ s := by
  intro evs
  induction evs with
  | nil =>
    intro init
    exact ⟨[], List.Sublist.refl [], by simp⟩
  | cons m rest ih =>
    intro init
    rcases onNewMessageTimeline_cases a init m with hc | hc
    · obtain ⟨s, hs, he⟩ := ih init
      refine ⟨s, List.Sublist.cons m hs, ?_⟩
      rw [List.foldl_cons, hc, he]
    · obtain ⟨s, hs, he⟩ := ih (init ++ [m])
      refine ⟨m :: s, List.Sublist.cons₂ m hs, ?_⟩
      rw [List.foldl_cons, hc, he, List.append_assoc]
      rfl

/-- C1: starting from a timeline whose ids are pairwise distinct, any
sequence of `new_message` events delivered to the Message Timeline
handler — duplicates of the same id included — yields a timeline in
which each id occurs at most once, and an event whose id already occurs
in the timeline leaves the timeline unchanged. -/
theorem c1_timeline_dedup (a : Option String) (init : List Message)
    (h : (init.map Message.id).Nodup) (evs : List Message) :
    ((List.foldl (onNewMessageTimeline a) init evs).map Message.id).Nodup ∧
    (∀ m : Message, init.any (fun x => x.id == m.id) = true →
      onNewMessageTimeline a init m = init) := by
  constructor
  · induction evs generalizing init with
    | nil => exact h
    | cons m rest ih =>
      rw [List.foldl_cons]
      exact ih _ (onNewMessageTimeline_nodup a init m h)
  · intro m hm
    unfold onNewMessageTimeline appendIfNew
    rw [hm]
    simp

/-- Witness for C1 at a concrete timeline and duplicate-bearing event
stream. -/
theorem c1_witness :
    (([msgT1000].map Message.id).Nodup) ∧
    ((List.foldl (onNewMessageTimeline (some "convA")) [msgT1000]
        [msgT1001, msgT1000, msgT1001]).map Message.id).Nodup :=
  ⟨by decide, (c1_timeline_dedup (some "convA") [msgT1000] (by decide)
      [msgT1001, msgT1000, msgT1001]).1⟩

/-- C2 counterexample: with the 10:00 and 10:02 messages already in the
timeline, a 10:01 message arriving last is blind-appended, so the
rendered order is 10:00, 10:02, 10:01 — not the timestamp order
10:00, 10:01, 10:02 the claim requires. -/
theorem c2_counterexample :
    onNewMessageTimeline (some "convA") [msgT1000, msgT1002] msgT1001
      = [msgT1000, msgT1002, msgT1001] ∧
    [msgT1000, msgT1002, msgT1001] ≠ [msgT1000, msgT1001, msgT1002] ∧
    ¬ ([msgT1000, msgT1002, msgT1001].map Message.created_at).Pairwise (· ≤ ·) := by
  refine ⟨by decide, by decide, ?_⟩
  intro hp
  simp only [List.map_cons, List.map_nil, List.pairwise_cons] at hp
  have := hp.2.1 msgT1001.created_at (by simp)
  simp [msgT1002, msgT1001] at this

/-- C2 amended: the timeline renders `new_message` events in arrival
order — each accepted event is appended at the end, so the handler's
result is always the previous timeline followed by a sublist of the
event stream in arrival order; in the claim's scenario the rendered
order is therefore 10:00, 10:02, 10:01. -/
theorem c2_arrival_order_append :
    (∀ (a : Option String) (evs init : List Message),
      ∃ s, List.Sublist s evs ∧ List.foldl (onNewMessageTimeline a) init evs = init ++ s) ∧
    List.foldl (onNewMessageTimeline (some "convA")) [msgT1000, msgT1002] [msgT1001]
      = [msgT1000, msgT1002, msgT1001] := by
  exact ⟨fun a evs init => foldl_onNewMessageTimeline_sublist a evs init, by decide⟩

/-- C3: the late-resolving message load for conversation A is applied
unconditionally, so after switching from A to B (and B's load having
resolved), A's stale result overwrites the timeline displayed for B:
the state still shows B active but holds A's messages. -/
theorem c3_stale_load_overwrites :
    (loadMessagesResolve
        (loadMessagesResolve
          (handleSelectConversation (ChatState.mk (some "A") []) "B")
          "B" [msgInB])
        "A" [msgInA]).activeConvId = some "B" ∧
    (loadMessagesResolve
        (loadMessagesResolve
          (handleSelectConversation (ChatState.mk (some "A") []) "B")
          "B" [msgInB])
        "A" [msgInA]).messages = [msgInA] ∧
    (loadMessagesResolve
        (loadMessagesResolve
          (handleSelectConversation (ChatState.mk (some "A") []) "B")
          "B" [msgInB])
        "A" [msgInA]).messages ≠ [msgInB] := by
  exact ⟨rfl, rfl, by decide⟩

/-- C4: a text-only send clears the input and reply target before the
request settles (true half of the claim), but a send that fails —
the acknowledgment reporting failure — resolves `null` rather than
rejecting, so the `catch` branch that would restore the drafted text
never runs and the input stays empty; the restore only fires on the
`rejected` outcome that `sendMessage` never produces. -/
theorem c4_failed_send_input_not_restored :
    (handleSendBegin (ComposerState.mk "hello" (some msgT1000) false)).2.messageInput = "" ∧
    (handleSendBegin (ComposerState.mk "hello" (some msgT1000) false)).2.replyingTo = none ∧
    sendMessage true (AckResponse.mk false none) = SendOutcome.resolved none ∧
    (handleSendFinish
        (handleSendBegin (ComposerState.mk "hello" (some msgT1000) false)).1
        (sendMessage true (AckResponse.mk false none))
        (handleSendBegin (ComposerState.mk "hello" (some msgT1000) false)).2).messageInput
      = "" ∧
    (handleSendFinish
        (handleSendBegin (ComposerState.mk "hello" (some msgT1000) false)).1
        (sendMessage true (AckResponse.mk false none))
        (handleSendBegin (ComposerState.mk "hello" (some msgT1000) false)).2).messageInput
      ≠ "hello" ∧
    (handleSendFinish "hello" SendOutcome.rejected
        (handleSendBegin (ComposerState.mk "hello" (some msgT1000) false)).2).messageInput
      = "hello" := by
  refine ⟨rfl, rfl, rfl, rfl, ?_, rfl⟩
  decide

/-- C7: a preview is staged only for files of size at most 2 MiB whose
MIME type starts with image/ or video/; the 3 MiB image/png file is
rejected with the size-limit error, never staged, and hence nothing is
handed to the media upload path. -/
theorem c7_attachment_validation :
    (∀ (file : JSFile) (readResult : Option String) (mp : MediaPreview),
      (handleFileSelect file readResult).2 = some mp →
      file.size ≤ MAX_FILE_SIZE ∧
      (startsWithStr file.type "image/" = true ∨ startsWithStr file.type "video/" = true) ∧
      mp.type = file.type) ∧
    handleFileSelect (JSFile.mk (3 * 1024 * 1024) "image/png" "big.png") (some "data")
      = (some UploadError.tooLarge, none) ∧
    handleSendMediaAttempt
        (handleFileSelect (JSFile.mk (3 * 1024 * 1024) "image/png" "big.png") (some "data")).2
        (some "convA") false
      = none := by
  refine ⟨?_, by decide, by decide⟩
  intro file readResult mp h
  unfold handleFileSelect at h
  split at h
  · simp at h
  · split at h
    · simp at h
    · rename_i hsize htype
      refine ⟨Nat.le_of_not_lt hsize, ?_, ?_⟩
      · by_cases hi : startsWithStr file.type "image/" = true
        · exact Or.inl hi
        · by_cases hv : startsWithStr file.type "video/" = true
          · exact Or.inr hv
          · simp only [Bool.not_eq_true] at hi hv
            exact absurd (by rw [hi, hv]; rfl) htype
      · cases readResult with
        | some d =>
          simp only [] at h
          have h2 : some (MediaPreview.mk file.type d file.name) = some mp := h
          have h3 := Option.some.inj h2
          rw [← h3]
        | none => simp at h

/-- Witness for C7 at a concrete 1 KiB image file. -/
theorem c7_witness :
    (handleFileSelect (JSFile.mk 1024 "image/png" "ok.png") (some "d")).2
        = some (MediaPreview.mk "image/png" "d" "ok.png") ∧
    (1024 ≤ MAX_FILE_SIZE ∧
      (startsWithStr "image/png" "image/" = true ∨
       startsWithStr "image/png" "video/" = true) ∧
      (MediaPreview.mk "image/png" "d" "ok.png").type = "image/png") :=
  ⟨by decide,
   c7_attachment_validation.1 (JSFile.mk 1024 "image/png" "ok.png") (some "d")
     (MediaPreview.mk "image/png" "d" "ok.png") (by decide)⟩

/-- C8 counterexample: a `user_typing` event for the active
conversation whose user is the current user is ignored by the handler,
so not every matching event adds its user to the typing set. -/
theorem c8_counterexample :
    onUserTyping (some "convA") "u1" [] (TypingEvent.mk "convA" "u1") = [] ∧
    "u1" ∉ onUserTyping (some "convA") "u1" [] (TypingEvent.mk "convA" "u1") := by
  refine ⟨by decide, by decide⟩

/-- C8 amended: events for a conversation other than the active one
leave the typing set unchanged (they are discarded — the handlers keep
no buffer); a matching `user_typing` event from a user other than the
current user adds that user; a matching event for the current user's
own id is ignored; and a matching `user_stop_typing` event removes the
user from the set. -/
theorem c8_typing_events :
    (∀ (a : Option String) (cu : String) (s : List String) (d : TypingEvent),
      some d.conversationId ≠ a →
      onUserTyping a cu s d = s ∧ onUserStopTyping a s d = s) ∧
    (∀ (a : Option String) (cu : String) (s : List String) (d : TypingEvent),
      some d.conversationId = a → d.userId ≠ cu →
      onUserTyping a cu s d = setAdd s d.userId ∧ d.userId ∈ onUserTyping a cu s d) ∧
    (∀ (a : Option String) (cu : String) (s : List String) (d : TypingEvent),
      d.userId = cu → onUserTyping a cu s d = s) ∧
    (∀ (a : Option String) (s : List String) (d : TypingEvent),
      some d.conversationId = a → d.userId ∉ onUserStopTyping a s d) := by
  refine ⟨?_, ?_, ?_, ?_⟩
  · intro a cu s d hne
    constructor
    · unfold onUserTyping
      rw [if_neg]
      intro hc
      exact hne hc.1
    · unfold onUserStopTyping
      rw [if_neg hne]
  · intro a cu s d hconv huser
    have heq : onUserTyping a cu s d = setAdd s d.userId := by
      unfold onUserTyping
      rw [if_pos ⟨hconv, huser⟩]
    refine ⟨heq, ?_⟩
    rw [heq]
    unfold setAdd
    split
    · assumption
    · simp
  · intro a cu s d hself
    unfold onUserTyping
    rw [if_neg]
    intro hc
    exact hc.2 hself
  · intro a s d hconv
    unfold onUserStopTyping
    rw [if_pos hconv]
    intro hmem
    have := List.of_mem_filter hmem
    simp at this

/-- Witness for C8 at concrete events for active and inactive
conversations. -/
theorem c8_witness :
    (some (TypingEvent.mk "convA" "u2").conversationId = some "convA") ∧
    ((TypingEvent.mk "convA" "u2").userId ≠ "u1") ∧
    (onUserTyping (some "convA") "u1" [] (TypingEvent.mk "convA" "u2")
        = setAdd [] "u2" ∧
      "u2" ∈ onUserTyping (some "convA") "u1" [] (TypingEvent.mk "convA" "u2")) :=
  ⟨rfl, by decide,
   c8_typing_events.2.1 (some "convA") "u1" [] (TypingEvent.mk "convA" "u2") rfl (by decide)⟩

/-- C10: the send promise always resolves — with `null` when no socket
exists, with the acknowledged message on a success ack, and with `null`
on a failure ack; it never takes the rejected outcome. -/
theorem c10_send_never_rejects :
    (∀ (hasSocket : Bool) (response : AckResponse),
      sendMessage hasSocket response ≠ SendOutcome.rejected) ∧
    (∀ response : AckResponse, sendMessage false response = SendOutcome.resolved none) ∧
    (∀ response : AckResponse, response.success = true →
      sendMessage true response = SendOutcome.resolved response.message) ∧
    (∀ response : AckResponse, response.success = false →
      sendMessage true response = SendOutcome.resolved none) := by
  refine ⟨?_, ?_, ?_, ?_⟩
  · intro hasSocket response
    unfold sendMessage
    split
    · simp
    · split <;> simp
  · intro response
    rfl
  · intro response hs
    unfold sendMessage
    rw [if_neg (by simp), if_pos hs]
  · intro response hs
    unfold sendMessage
    rw [if_neg (by simp), if_neg (by simp [hs])]

/-- Witness for C10 at a concrete failure acknowledgment. -/
theorem c10_witness :
    ((AckResponse.mk false (some msgT1000)).success = false) ∧
    sendMessage true (AckResponse.mk false (some msgT1000)) = SendOutcome.resolved none :=
  ⟨rfl, c10_send_never_rejects.2.2.2 (AckResponse.mk false (some msgT1000)) rfl⟩

/-- JS-style split always yields at least one segment. -/
theorem splitChars_ne_nil (p : Char → Bool) (l : List Char) : splitChars p l ≠ [] := by
  cases l with
  | nil => simp [splitChars]
  | cons c cs =>
    unfold splitChars
    split
    · simp
    · split
      · simp
      · simp

/-- A split with a single segment means the input had no separator, so
the segment is the whole input. -/
theorem splitChars_singleton (p : Char → Bool) :
    ∀ (l w : List Char), splitChars p l = [w] → w = l := by
  intro l
  induction l with
  | nil =>
    intro w h
    unfold splitChars at h
    injection h with h1 h2
    exact h1.symm
  | cons c cs ih =>
    intro w h
    unfold splitChars at h
    split at h
    · injection h with h1 h2
      exact absurd h2 (splitChars_ne_nil p cs)
    · split at h
      · rename_i hS
        exact absurd hS (splitChars_ne_nil p cs)
      · rename_i w0 ws hS
        injection h with h1 h2
        subst h2
        have hw0 : w0 = cs := ih w0 hS
        rw [← h1, hw0]

/-- The default of `getLastD` on a list with at least two entries is
irrelevant. -/
theorem getLastD_cons_cons {α : Type} (a b : α) (l : List α) (d : α) :
    (a :: b :: l).getLastD d = (b :: l).getLastD d := by
  simp [List.getLastD_cons]

/-- The last segment of a JS-style split is a suffix of the input: it
is no longer than the input, and dropping everything before it from the
input yields exactly that segment. -/
theorem splitChars_getLastD_suffix (p : Char → Bool) :
    ∀ l : List Char,
      ((splitChars p l).getLastD []).length ≤ l.length ∧
      l.drop (l.length - ((splitChars p l).getLastD []).length)
        = (splitChars p l).getLastD [] := by
  intro l
  induction l with
  | nil => simp [splitChars]
  | cons c cs ih =>
    unfold splitChars
    split
    · rw [List.getLastD_cons]
      obtain ⟨h1, h2⟩ := ih
      refine ⟨Nat.le_succ_of_le h1, ?_⟩
      have hl : (c :: cs).length - ((splitChars p cs).getLastD []).length
          = (cs.length - ((splitChars p cs).getLastD []).length) + 1 := by
        simp only [List.length_cons]
        omega
      rw [hl, List.drop_succ_cons]
      exact h2
    · split
      · rename_i hS
        exact absurd hS (splitChars_ne_nil p cs)
      · rename_i w0 ws hS
        cases ws with
        | nil =>
          have hw0 : w0 = cs := splitChars_singleton p cs w0 hS
          subst hw0
          simp [List.getLastD_cons, List.getLastD_nil]
        | cons w1 ws2 =>
          rw [getLastD_cons_cons]
          rw [hS, getLastD_cons_cons] at ih
          obtain ⟨h1, h2⟩ := ih
          refine ⟨Nat.le_succ_of_le h1, ?_⟩
          have hl : (c :: cs).length - ((w1 :: ws2).getLastD []).length
              = (cs.length - ((w1 :: ws2).getLastD []).length) + 1 := by
            simp only [List.length_cons]
            omega
          rw [hl, List.drop_succ_cons]
          exact h2

/-- C5: whenever the mention query was computed by the input handler at
cursor position `cursor` (the position at the last keystroke, i.e. the
activation/recomputation time), selecting a candidate splices
`"@" ++ username ++ " "` exactly in place of the partial `@`-token:
the token is the last whitespace-delimited word before the cursor, it
starts at the captured offset `q.index`, and the text before the token
and after the cursor is preserved. Concretely, with members amy and
amir, typing `"@am"` lists both candidates, and selecting amir yields
`"@amir "` — also when one more character was typed (`"@ami"`) before
selecting. -/
theorem c5_mention_select_splice :
    (∀ (val : List Char) (cursor : Nat) (q : MentionQuery) (u : List Char),
      cursor ≤ val.length →
      computeMentionQuery val cursor = some q →
      ∃ w : List Char,
        w.head? = some '@' ∧
        q.text = (w.drop 1).map Char.toLower ∧
        q.index + w.length = cursor ∧
        val.take cursor = val.take q.index ++ w ∧
        handleMentionSelect val (some q) cursor u
          = val.take q.index ++ '@' :: (u ++ ' ' :: val.drop cursor)) ∧
    mentionableMembers [amy, amir] "u1" (computeMentionQuery ("@am".toList) 3) = [amy, amir] ∧
    handleMentionSelect ("@am".toList) (computeMentionQuery ("@am".toList) 3) 3 ("amir".toList)
      = "@amir ".toList ∧
    handleMentionSelect ("@ami".toList) (computeMentionQuery ("@ami".toList) 4) 4 ("amir".toList)
      = "@amir ".toList := by
  refine ⟨?_, by decide, by decide, by decide⟩
  intro val cursor q u hcur hq
  simp only [computeMentionQuery] at hq
  split at hq
  · rename_i hhead
    have hq2 := Option.some.inj hq
    obtain ⟨hle, hdrop⟩ :=
      splitChars_getLastD_suffix (fun c => c.isWhitespace) (val.take cursor)
    have hlen : (val.take cursor).length = cursor := by
      rw [List.length_take]
      omega
    rw [hlen] at hle hdrop
    refine ⟨(splitChars (fun c => c.isWhitespace) (val.take cursor)).getLastD [],
      hhead, ?_, ?_, ?_, ?_⟩
    · rw [← hq2]
    · rw [← hq2]
      exact Nat.sub_add_cancel hle
    · rw [← hq2]
      have h4 := List.take_append_drop
        (cursor - ((splitChars (fun c => c.isWhitespace) (val.take cursor)).getLastD []).length)
        (val.take cursor)
      rw [hdrop] at h4
      rw [List.take_take, Nat.min_eq_left (Nat.sub_le cursor _)] at h4
      exact h4.symm
    · rw [← hq2]
      rfl
  · exact absurd hq (by simp)

/-- Witness for C5: the general splice statement applied at the
concrete input `"@am"` with cursor 3 and candidate `amir`. -/
theorem c5_witness :
    (3 ≤ ("@am".toList).length) ∧
    computeMentionQuery ("@am".toList) 3 = some (MentionQuery.mk true ("am".toList) 0) ∧
    (∃ w : List Char,
      w.head? = some '@' ∧
      (MentionQuery.mk true ("am".toList) 0).text = (w.drop 1).map Char.toLower ∧
      (MentionQuery.mk true ("am".toList) 0).index + w.length = 3 ∧
      ("@am".toList).take 3 = ("@am".toList).take (MentionQuery.mk true ("am".toList) 0).index ++ w ∧
      handleMentionSelect ("@am".toList) (some (MentionQuery.mk true ("am".toList) 0)) 3 ("amir".toList)
        = ("@am".toList).take (MentionQuery.mk true ("am".toList) 0).index
            ++ '@' :: ("amir".toList ++ ' ' :: ("@am".toList).drop 3)) :=
  ⟨by decide, by decide,
   c5_mention_select_splice.1 ("@am".toList) 3 (MentionQuery.mk true ("am".toList) 0)
     ("amir".toList) (by decide) (by decide)⟩

/-- Reduction of the pin toggle on the success path with an active
conversation. -/
theorem handleToggleGlobalPin_some_true (cid : String) (xs : List Conversation) (m : Message) :
    handleToggleGlobalPin (some cid) xs m true
      = xs.map (fun c =>
          if c.id == cid then
            { c with pinned_message :=
                if isPinnedById (xs.find? (fun x => x.id == cid)) m.id then none
                else some m }
          else c) := rfl

/-- Updating the pin slot of the conversations matching `cid` commutes
with looking the conversation up, because the update keeps ids. -/
theorem find?_map_setPinned (cs : List Conversation) (cid : String) (v : Option Message) :
    ((cs.map (fun c => if c.id == cid then { c with pinned_message := v } else c)).find?
        (fun c => c.id == cid))
      = (cs.find? (fun c => c.id == cid)).map
          (fun c => { c with pinned_message := v }) := by
  induction cs with
  | nil => rfl
  | cons c cs ih =>
    by_cases hcid : c.id = cid
    · simp [hcid]
    · simp only [beq_iff_eq] at ih
      simp [hcid, ih, -List.find?_map]

/-- C6 counterexample: pinning message M twice in a row on a
conversation with an empty slot leaves the slot empty, not set to M —
the second invocation unpins rather than confirming. -/
theorem c6_counterexample :
    pinnedMessageOf
        (handleToggleGlobalPin (some "convA")
          (handleToggleGlobalPin (some "convA") [convDemo] msgT1000 true) msgT1000 true)
        "convA" = none ∧
    pinnedMessageOf
        (handleToggleGlobalPin (some "convA")
          (handleToggleGlobalPin (some "convA") [convDemo] msgT1000 true) msgT1000 true)
        "convA" ≠ some msgT1000 := by
  refine ⟨by decide, by decide⟩

/-- C6 amended: the pin handler implements toggle semantics on the
single slot. When M is not the currently pinned message, invoking pin
on M sets the slot to M and doing so again unpins (slot becomes empty);
when M is currently pinned, invoking pin on M clears the slot. In
particular invoking pin on a message different from the pinned one
replaces the slot with that message (first conclusion). -/
theorem c6_toggle_semantics
    (cs : List Conversation) (cid : String) (m : Message) (c : Conversation)
    (hfind : cs.find? (fun x => x.id == cid) = some c) :
    (c.pinned_message.map Message.id ≠ some m.id →
      pinnedMessageOf (handleToggleGlobalPin (some cid) cs m true) cid = some m ∧
      pinnedMessageOf
          (handleToggleGlobalPin (some cid)
            (handleToggleGlobalPin (some cid) cs m true) m true) cid = none) ∧
    (c.pinned_message.map Message.id = some m.id →
      pinnedMessageOf (handleToggleGlobalPin (some cid) cs m true) cid = none) := by
  have hc : (c.id == cid) = true := by
    have h0 := List.find?_some hfind
    simpa using h0
  constructor
  · intro hne
    have hpin : isPinnedById (cs.find? (fun x => x.id == cid)) m.id = false := by
      rw [hfind]
      cases hp : c.pinned_message with
      | none => simp [isPinnedById, hp]
      | some p =>
        have hpid : p.id ≠ m.id := by
          intro he
          apply hne
          rw [hp]
          simp [he]
        simp only [isPinnedById, hp]
        exact beq_eq_false_iff_ne.mpr hpid
    have h1 : handleToggleGlobalPin (some cid) cs m true
        = cs.map (fun x => if x.id == cid then { x with pinned_message := some m } else x) := by
      rw [handleToggleGlobalPin_some_true, hpin]
      simp
    have hfind1 : (handleToggleGlobalPin (some cid) cs m true).find? (fun x => x.id == cid)
        = some { c with pinned_message := some m } := by
      rw [h1, find?_map_setPinned, hfind]
      rfl
    constructor
    · unfold pinnedMessageOf
      rw [hfind1]
      rfl
    · have hpin2 : isPinnedById
          ((handleToggleGlobalPin (some cid) cs m true).find? (fun x => x.id == cid)) m.id
          = true := by
        rw [hfind1]
        simp only [isPinnedById]
        exact beq_self_eq_true m.id
      have h2 : handleToggleGlobalPin (some cid) (handleToggleGlobalPin (some cid) cs m true) m true
          = (handleToggleGlobalPin (some cid) cs m true).map
              (fun x => if x.id == cid then { x with pinned_message := none } else x) := by
        rw [handleToggleGlobalPin_some_true, hpin2]
        simp
      unfold pinnedMessageOf
      rw [h2, find?_map_setPinned, hfind1]
      rfl
  · intro heq
    have hpin : isPinnedById (cs.find? (fun x => x.id == cid)) m.id = true := by
      rw [hfind]
      cases hp : c.pinned_message with
      | none => rw [hp] at heq; exact absurd heq (by simp)
      | some p =>
        rw [hp] at heq
        have hpm : p.id = m.id := by
          simpa using heq
        simp only [isPinnedById, hp]
        rw [hpm]
        exact beq_self_eq_true m.id
    have h1 : handleToggleGlobalPin (some cid) cs m true
        = cs.map (fun x => if x.id == cid then { x with pinned_message := none } else x) := by
      rw [handleToggleGlobalPin_some_true, hpin]
      simp
    unfold pinnedMessageOf
    rw [h1, find?_map_setPinned, hfind]
    rfl

/-- Witness for C6: toggling on the demo conversation whose slot is
empty pins the message, and toggling again clears the slot. -/
theorem c6_witness :
    ([convDemo].find? (fun x => x.id == "convA") = some convDemo) ∧
    (convDemo.pinned_message.map Message.id ≠ some msgT1000.id) ∧
    (pinnedMessageOf (handleToggleGlobalPin (some "convA") [convDemo] msgT1000 true) "convA"
        = some msgT1000 ∧
      pinnedMessageOf
          (handleToggleGlobalPin (some "convA")
            (handleToggleGlobalPin (some "convA") [convDemo] msgT1000 true) msgT1000 true)
          "convA" = none) :=
  ⟨by decide, by decide,
   (c6_toggle_semantics [convDemo] "convA" msgT1000 convDemo (by decide)).1 (by decide)⟩

/-- One lifecycle step preserves the transport balance: opens performed
plus transports initially held equal closes performed plus transports
finally held. -/
theorem socketStep_balance (s : SocketState) (e : SocketEvent) :
    ((socketStep s e).2.countP (fun a => a = TransportAction.openTransport)) + bOpen s
      = ((socketStep s e).2.countP (fun a => a = TransportAction.closeTransport))
        + bOpen (socketStep s e).1 := by
  cases e with
  | mount tok =>
    cases tok with
    | none => simp [socketStep]
    | some t =>
      by_cases hg : s.globalSocket
      · simp [socketStep, hg, bOpen]
      · simp [socketStep, hg, bOpen]
  | unmount =>
    by_cases hcond : (s.connectionCount - 1 = 0 ∧ s.globalSocket = true)
    · simp [socketStep, hcond, bOpen, hcond.2]
    · simp only [socketStep, if_neg hcond]
      simp [bOpen]

/-- The transport balance holds along every run of the connection
manager. -/
theorem socketRun_balance :
    ∀ (evs : List SocketEvent) (s : SocketState),
      ((socketRun s evs).2.countP (fun a => a = TransportAction.openTransport)) + bOpen s
        = ((socketRun s evs).2.countP (fun a => a = TransportAction.closeTransport))
          + bOpen (socketRun s evs).1 := by
  intro evs
  induction evs with
  | nil => intro s; simp [socketRun]
  | cons e es ih =>
    intro s
    have hstep := socketStep_balance s e
    have htail := ih (socketStep s e).1
    simp only [socketRun, List.countP_append]
    omega

/-- C9: along every consumer lifecycle trace from the module's initial
state, the number of transports opened exceeds the number closed by
exactly one when the singleton slot is occupied and zero otherwise — so
at most one transport connection exists at any point; a mount with no
auth token changes nothing and opens nothing; a mount while a socket
already exists reuses it (no open action, slot still occupied, count
incremented); and a close action happens only when the decremented
reference count is zero. -/
theorem c9_single_connection :
    (∀ evs : List SocketEvent,
      ((socketRun socketInit evs).2.countP (fun a => a = TransportAction.openTransport))
        = ((socketRun socketInit evs).2.countP (fun a => a = TransportAction.closeTransport))
          + bOpen (socketRun socketInit evs).1 ∧
      ((socketRun socketInit evs).2.countP (fun a => a = TransportAction.openTransport))
        ≤ ((socketRun socketInit evs).2.countP (fun a => a = TransportAction.closeTransport))
          + 1) ∧
    (∀ s : SocketState, socketStep s (SocketEvent.mount none) = (s, [])) ∧
    (∀ (s : SocketState) (t : String), s.globalSocket = true →
      (socketStep s (SocketEvent.mount (some t))).1.globalSocket = true ∧
      (socketStep s (SocketEvent.mount (some t))).2 = [] ∧
      (socketStep s (SocketEvent.mount (some t))).1.connectionCount
        = s.connectionCount + 1) ∧
    (∀ s : SocketState, (socketStep s SocketEvent.unmount).2 ≠ [] →
      (socketStep s SocketEvent.unmount).1.connectionCount = 0 ∧
      (socketStep s SocketEvent.unmount).2 = [TransportAction.closeTransport]) := by
  refine ⟨?_, ?_, ?_, ?_⟩
  · intro evs
    have hb := socketRun_balance evs socketInit
    have hinit : bOpen socketInit = 0 := rfl
    rw [hinit] at hb
    have hle : bOpen (socketRun socketInit evs).1 ≤ 1 := by
      unfold bOpen
      split
      · exact le_refl 1
      · exact Nat.zero_le 1
    omega
  · intro s
    rfl
  · intro s t hg
    simp [socketStep, hg]
  · intro s hne
    by_cases hcond : (s.connectionCount - 1 = 0 ∧ s.globalSocket = true)
    · constructor
      · simp only [socketStep, if_pos hcond]
        exact hcond.1
      · simp only [socketStep, if_pos hcond]
    · exfalso
      apply hne
      simp only [socketStep, if_neg hcond]

/-- Witness for C9: a second consumer mounting with a token while the
socket exists reuses the connection. -/
theorem c9_witness :
    ((SocketState.mk true 1).globalSocket = true) ∧
    ((socketStep (SocketState.mk true 1) (SocketEvent.mount (some "tok"))).1.globalSocket = true ∧
      (socketStep (SocketState.mk true 1) (SocketEvent.mount (some "tok"))).2 = [] ∧
      (socketStep (SocketState.mk true 1) (SocketEvent.mount (some "tok"))).1.connectionCount
        = (SocketState.mk true 1).connectionCount + 1) :=
  ⟨rfl, c9_single_connection.2.2.1 (SocketState.mk true 1) "tok" rfl⟩
